import Mathlib

/-!
Verification of the nuclear-explosions explorer (`nuclear_app.py`) against its
specification.  The program loads a CSV of nuclear test records, derives
display columns, filters by country / year range / category / test-name
search, summarizes the filtered view, and renders several sections.

The embedding below models the pandas DataFrame as a Lean list of records
(the DataFrame's rows, in order); numeric columns use `Int` for years and
`Rat` for coordinates and depth (exact stand-ins for the floats, which the
claims never exercise at precision boundaries).  The test-name search is
modelled twice: literally (`containsCI`, correct for metacharacter-free
searches) and with the regex interpretation pandas applies by default
(`filtered_dataRe`), which distinguishes wildcard matching and the
`re.error` raised by an invalid pattern.
-/

namespace NuclearApp

/-- One row of the loaded dataset, after `load_data` derived its display
columns.  Fields mirror the DataFrame columns used by the app:
the eleven required source columns plus the derived `Latitude`, `Longitude`,
`Year`, `Country`, `Depth`, `Location`, `Purpose`, `Test Name`, `Test Type`
and `Category` columns (the derived ones are stored as plain fields, as in
the DataFrame; `location` and `category` are filled in by `derive` below). -/
structure Record where
  lat : Rat
  lon : Rat
  day : Int
  month : Int
  year : Int
  country : String
  deployLoc : String
  depth : Rat
  purpose : String
  testName : String
  testType : String
  location : String
  category : String
deriving DecidableEq, Repr

/-- The sidebar filter parameters: selected countries, the inclusive year
range from the slider, the selected categories (possibly containing the
sentinel "All"), and the test-name search string (empty when unused). -/
structure Criteria where
  countries : List String
  yearLo : Int
  yearHi : Int
  categories : List String
  search : String
deriving DecidableEq, Repr

/-- `listHasPre pat l` is true when `pat` is an initial segment of `l`. -/
def listHasPre : List Char → List Char → Bool
  | [], _ => true
  | _ :: _, [] => false
  | p :: ps, h :: hs => p == h && listHasPre ps hs

/-- `listHasSub pat l` is true when `pat` occurs contiguously inside `l`. -/
def listHasSub (pat : List Char) : List Char → Bool
  | [] => pat.isEmpty
  | h :: hs => listHasPre pat (h :: hs) || listHasSub pat hs

/-- Literal case-insensitive substring containment of the search text in
the test name.  This is the behavior of
`Series.str.contains(search, case=False, na=False)` only when the search
contains no regex metacharacters: the pandas default `regex=True`
interprets the search as a regular expression, and that is modelled
separately below (`classify`, `searchStage`, `filtered_dataRe`).
(`na=False` is irrelevant here because every loaded record has a non-null
test name.) -/
def containsCI (s pat : String) : Bool :=
  listHasSub (pat.data.map Char.toLower) (s.data.map Char.toLower)

/-- The filtering pipeline of the app (lines 82–91) under the literal
reading of the search: if the sentinel "All" is among the selected
categories, filter by country membership and the inclusive year range
only; otherwise additionally require category membership; then, when the
search box is non-empty, keep only rows whose test name contains the
search text case-insensitively.  Faithful to the program exactly when the
search has no regex metacharacters; `filtered_dataRe` below refines the
search stage with the regex interpretation that pandas applies by
default. -/
def filtered_data (data : List Record) (c : Criteria) : List Record :=
  let base :=
    if c.categories.contains "All" then
      data.filter (fun r =>
        c.countries.contains r.country &&
        (decide (c.yearLo ≤ r.year) && decide (r.year ≤ c.yearHi)))
    else
      data.filter (fun r =>
        c.countries.contains r.country &&
        (decide (c.yearLo ≤ r.year) && decide (r.year ≤ c.yearHi)) &&
        c.categories.contains r.category)
  if c.search ≠ "" then
    base.filter (fun r => containsCI r.testName c.search)
  else
    base

/-- The per-record predicate stated by the spec, §4.2: country selected,
year within the inclusive interval, sentinel "All" selected or category
selected, and search empty or a case-insensitive substring of the test
name. -/
def specMatch (c : Criteria) (r : Record) : Prop :=
  r.country ∈ c.countries ∧
  c.yearLo ≤ r.year ∧ r.year ≤ c.yearHi ∧
  ("All" ∈ c.categories ∨ r.category ∈ c.categories) ∧
  (c.search = "" ∨ containsCI r.testName c.search = true)

instance (c : Criteria) (r : Record) : Decidable (specMatch c r) := by
  unfold specMatch; infer_instance

/-- The conjunction of the filter conditions as one Boolean predicate. -/
def predB (c : Criteria) (r : Record) : Bool :=
  c.countries.contains r.country &&
  (decide (c.yearLo ≤ r.year) && decide (r.year ≤ c.yearHi)) &&
  (c.categories.contains "All" || c.categories.contains r.category) &&
  (c.search == "" || containsCI r.testName c.search)

theorem contains_true_iff {l : List String} {a : String} :
    l.contains a = true ↔ a ∈ l := by
  simp [List.contains, List.elem_iff]

/-- The two-stage, branching filter of the code collapses to one pass of the
conjunction predicate. -/
theorem filtered_eq_filter (data : List Record) (c : Criteria) :
    filtered_data data c = data.filter (predB c) := by
  unfold filtered_data predB
  by_cases hs : c.search = ""
  · have hs' : (c.search == "") = true := beq_iff_eq.mpr hs
    rw [if_neg (fun h => h hs)]
    by_cases hAll : c.categories.contains "All" = true
    · have hA : "All" ∈ c.categories := contains_true_iff.mp hAll
      rw [if_pos hAll]
      apply List.filter_congr
      intro r _
      simp [hA, hs']
    · have hA : ¬ "All" ∈ c.categories := fun hm => hAll (contains_true_iff.mpr hm)
      rw [if_neg hAll]
      apply List.filter_congr
      intro r _
      simp [hA, hs']
  · have hs' : (c.search == "") = false := beq_eq_false_iff_ne.mpr hs
    rw [if_pos hs]
    by_cases hAll : c.categories.contains "All" = true
    · have hA : "All" ∈ c.categories := contains_true_iff.mp hAll
      rw [if_pos hAll, List.filter_filter]
      apply List.filter_congr
      intro r _
      simp [hA, hs', Bool.and_comm]
    · have hA : ¬ "All" ∈ c.categories := fun hm => hAll (contains_true_iff.mpr hm)
      rw [if_neg hAll, List.filter_filter]
      apply List.filter_congr
      intro r _
      simp [hA, hs', Bool.and_comm, Bool.and_left_comm, Bool.and_assoc]

/-- Membership in the filtered view is membership in the data plus the spec
predicate. -/
theorem mem_filtered_iff (data : List Record) (c : Criteria) (r : Record) :
    r ∈ filtered_data data c ↔ r ∈ data ∧ specMatch c r := by
  rw [filtered_eq_filter, List.mem_filter]
  unfold predB specMatch
  constructor
  · rintro ⟨hd, hp⟩
    simp only [Bool.and_eq_true, Bool.or_eq_true, beq_iff_eq, decide_eq_true_eq,
      contains_true_iff] at hp
    exact ⟨hd, hp.1.1.1, hp.1.1.2.1, hp.1.1.2.2, hp.1.2, hp.2⟩
  · rintro ⟨hd, h1, h2, h3, h4, h5⟩
    refine ⟨hd, ?_⟩
    simp only [Bool.and_eq_true, Bool.or_eq_true, beq_iff_eq, decide_eq_true_eq,
      contains_true_iff]
    exact ⟨⟨⟨h1, h2, h3⟩, h4⟩, h5⟩

/-- The regex metacharacters of Python `re` other than `.` (which the
model interprets): `^ $ * + ? \x7b \x7d [ ] \ | ( )`. -/
def hardMeta (c : Char) : Bool :=
  c == '^' || c == '$' || c == '*' || c == '+' || c == '?' ||
  c == '\x7b' || c == '\x7d' || c == '[' || c == ']' || c == '\\' ||
  c == '|' || c == '(' || c == ')'

/-- `search` contains no regex metacharacter at all (not even `.`), so the
compiled pattern matches it literally. -/
def noMeta (pat : String) : Bool :=
  pat.data.all (fun c => !(hardMeta c) && c != '.')

/-- One token of a compiled pattern in the modelled regex fragment: the
wildcard `.` or a literal character. -/
inductive PatTok where
  | dot
  | lit (c : Char)
deriving DecidableEq, Repr

/-- Compile a pattern inside the modelled fragment (literal characters and
the wildcard `.`); `none` when the pattern uses other regex syntax. -/
def parseFrag : List Char → Option (List PatTok)
  | [] => some []
  | c :: cs =>
    if hardMeta c then none
    else (parseFrag cs).map
      (fun ts => (if c == '.' then PatTok.dot else PatTok.lit c) :: ts)

/-- Characters allowed for the unbalanced-parenthesis check: literals,
`.`, `(` and `)`. -/
def parenOnly (l : List Char) : Bool :=
  l.all (fun c => !(hardMeta c) || c == '(' || c == ')')

/-- Whether the parentheses of the pattern are balanced.  A pattern built
only from literals, `.`, `(` and `)` whose parentheses are unbalanced is
always rejected by `re.compile` ("missing )" / "unbalanced parenthesis"). -/
def balancedAux : List Char → Nat → Bool
  | [], n => n == 0
  | c :: cs, n =>
    if c == '(' then balancedAux cs (n + 1)
    else if c == ')' then
      match n with
      | 0 => false
      | m + 1 => balancedAux cs m
    else balancedAux cs n

/-- What `re.compile(search, re.IGNORECASE)` does with the search text, as
far as the model can tell. -/
inductive PatClass where
  /-- Within the modelled fragment: literal characters and `.`. -/
  | frag (toks : List PatTok)
  /-- Recognizably invalid: `re.compile` raises `re.error`. -/
  | invalid
  /-- A regex beyond the modelled fragment; its matching behavior is not
  modelled here. -/
  | beyondFrag
deriving DecidableEq, Repr

/-- Classify the search text: the dot/literal fragment is compiled; a
pattern of literals, `.` and unbalanced parentheses is recognized as
raising `re.error`; everything else is an unmodelled regex. -/
def classify (pat : String) : PatClass :=
  match parseFrag pat.data with
  | some ts => PatClass.frag ts
  | none =>
    if parenOnly pat.data && !(balancedAux pat.data 0) then PatClass.invalid
    else PatClass.beyondFrag

/-- Case-fold a pattern token (`re.IGNORECASE`, modelled by lowercasing). -/
def tokLower : PatTok → PatTok
  | PatTok.dot => PatTok.dot
  | PatTok.lit c => PatTok.lit c.toLower

/-- `tokHasPre pat l` is true when the token pattern matches an initial
segment of `l` (the wildcard matches any character except a newline, as
Python's `.` does). -/
def tokHasPre : List PatTok → List Char → Bool
  | [], _ => true
  | _ :: _, [] => false
  | PatTok.dot :: ps, h :: hs => h != '\n' && tokHasPre ps hs
  | PatTok.lit p :: ps, h :: hs => p == h && tokHasPre ps hs

/-- `tokHasSub pat l` is true when the token pattern matches somewhere
inside `l` (the semantics of `re.search` for the fragment). -/
def tokHasSub (pat : List PatTok) : List Char → Bool
  | [] => pat.isEmpty
  | h :: hs => tokHasPre pat (h :: hs) || tokHasSub pat hs

/-- Result of the search stage at line 91.  pandas compiles the search as
a regex (default `regex=True`, with `re.IGNORECASE` from `case=False`)
before mapping it over the column, so an invalid pattern raises even when
the frame is already empty. -/
inductive SearchOutcome where
  /-- `str.contains` filtering completed with these rows. -/
  | ok (rows : List Record)
  /-- `re.compile` raised `re.error`; the script run crashes at line 91. -/
  | reErr
  /-- The search is a regex outside the modelled fragment; the resulting
  rows are not modelled. -/
  | beyond
deriving DecidableEq, Repr

/-- The country/year/category stage of the filter (lines 82–88), identical
to the `base` of `filtered_data`. -/
def baseStage (data : List Record) (c : Criteria) : List Record :=
  if c.categories.contains "All" then
    data.filter (fun r =>
      c.countries.contains r.country &&
      (decide (c.yearLo ≤ r.year) && decide (r.year ≤ c.yearHi)))
  else
    data.filter (fun r =>
      c.countries.contains r.country &&
      (decide (c.yearLo ≤ r.year) && decide (r.year ≤ c.yearHi)) &&
      c.categories.contains r.category)

/-- The search stage (lines 90–91) with the regex interpretation: skipped
for the empty search; otherwise the pattern is compiled and, within the
modelled fragment, each row is kept iff the pattern matches its test name
case-insensitively. -/
def searchStage (rows : List Record) (search : String) : SearchOutcome :=
  if search ≠ "" then
    match classify search with
    | PatClass.frag ts =>
        SearchOutcome.ok (rows.filter (fun r =>
          tokHasSub (ts.map tokLower) (r.testName.data.map Char.toLower)))
    | PatClass.invalid => SearchOutcome.reErr
    | PatClass.beyondFrag => SearchOutcome.beyond
  else SearchOutcome.ok rows

/-- The filtering pipeline (lines 82–91) with the regex-aware search
stage. -/
def filtered_dataRe (data : List Record) (c : Criteria) : SearchOutcome :=
  searchStage (baseStage data c) c.search

/-- `filtered_data` decomposed into its two stages. -/
theorem filtered_data_eq_stage (data : List Record) (c : Criteria) :
    filtered_data data c =
      if c.search ≠ "" then
        (baseStage data c).filter (fun r => containsCI r.testName c.search)
      else baseStage data c := rfl

theorem parseFrag_noMeta (l : List Char)
    (h : l.all (fun c => !(hardMeta c) && c != '.') = true) :
    parseFrag l = some (l.map PatTok.lit) := by
  induction l with
  | nil => rfl
  | cons c cs ih =>
    rw [List.all_cons, Bool.and_eq_true] at h
    obtain ⟨hc, hcs⟩ := h
    rw [Bool.and_eq_true] at hc
    obtain ⟨h1, h2⟩ := hc
    have h1' : hardMeta c = false := by
      cases hm : hardMeta c
      · rfl
      · rw [hm] at h1; exact absurd h1 (by decide)
    have h2' : (c == '.') = false := by
      cases hbe : (c == '.')
      · rfl
      · rw [show (c != '.') = !(c == '.') from rfl, hbe] at h2
        exact absurd h2 (by decide)
    simp [parseFrag, h1', h2', ih hcs]

theorem tokHasPre_lit (m : List Char) : ∀ hay : List Char,
    tokHasPre (m.map PatTok.lit) hay = listHasPre m hay := by
  induction m with
  | nil => intro hay; rfl
  | cons p ps ih =>
    intro hay
    cases hay with
    | nil => rfl
    | cons h hs =>
      show (p == h && tokHasPre (ps.map PatTok.lit) hs) = (p == h && listHasPre ps hs)
      rw [ih hs]

theorem tokHasSub_lit (m : List Char) : ∀ hay : List Char,
    tokHasSub (m.map PatTok.lit) hay = listHasSub m hay := by
  intro hay
  induction hay with
  | nil =>
    show (m.map PatTok.lit).isEmpty = m.isEmpty
    cases m <;> rfl
  | cons h hs ih =>
    show (tokHasPre (m.map PatTok.lit) (h :: hs) || tokHasSub (m.map PatTok.lit) hs) =
      (listHasPre m (h :: hs) || listHasSub m hs)
    rw [tokHasPre_lit, ih]

theorem map_lit_tokLower (m : List Char) :
    (m.map PatTok.lit).map tokLower = (m.map Char.toLower).map PatTok.lit := by
  induction m with
  | nil => rfl
  | cons c cs ih => simp [tokLower, ih]

/-- For an empty or metacharacter-free search the regex-aware pipeline
completes and agrees with the literal-substring pipeline. -/
theorem filtered_dataRe_literal (data : List Record) (c : Criteria)
    (hs : c.search = "" ∨ noMeta c.search = true) :
    filtered_dataRe data c = SearchOutcome.ok (filtered_data data c) := by
  rw [filtered_data_eq_stage]
  unfold filtered_dataRe searchStage
  by_cases he : c.search = ""
  · rw [if_neg (fun h => h he), if_neg (fun h => h he)]
  · rw [if_pos he, if_pos he]
    have hnm : noMeta c.search = true := hs.resolve_left he
    have hp : parseFrag c.search.data = some (c.search.data.map PatTok.lit) :=
      parseFrag_noMeta c.search.data hnm
    unfold classify
    rw [hp]
    show SearchOutcome.ok _ = SearchOutcome.ok _
    congr 1
    apply List.filter_congr
    intro r _
    unfold containsCI
    rw [map_lit_tokLower, tokHasSub_lit]

/-- Concrete record (spec §8 scenario): USA, 1965, depth 500, Shaft. -/
def recUSA1965 : Record :=
  ⟨37, -116, 1, 1, 1965, "USA", "Nevada", 500, "Wr", "Alpha", "Shaft",
    "Nevada, USA", "Shaft"⟩

/-- Concrete record (spec §8 scenario): USA, 1970, depth 300, Atmospheric. -/
def recUSA1970 : Record :=
  ⟨37, -116, 2, 3, 1970, "USA", "Nevada", 300, "Wr", "Bravo", "Atmospheric",
    "Nevada, USA", "Atmospheric"⟩

/-- Concrete record (spec §8 scenario): USSR, 1965, depth 800, Shaft. -/
def recUSSR1965 : Record :=
  ⟨50, 78, 4, 5, 1965, "USSR", "Semipalatinsk", 800, "Wr", "Charlie", "Shaft",
    "Semipalatinsk, USSR", "Shaft"⟩

/-- Concrete record (spec §8 scenario): France, 1966, depth 200, Shaft. -/
def recFRA1966 : Record :=
  ⟨-22, -139, 6, 7, 1966, "France", "Fangataufa", 200, "Wr", "Delta", "Shaft",
    "Fangataufa, France", "Shaft"⟩

/-- The four-record demo dataset of spec §8. -/
def demoData : List Record := [recUSA1965, recUSA1970, recUSSR1965, recFRA1966]

/-- The filter with the category condition dropped entirely: countries and
year range, then the search stage — exactly the `if "All" in
selected_categories` branch of the code. -/
def filteredNoCategory (data : List Record) (c : Criteria) : List Record :=
  let base :=
    data.filter (fun r =>
      c.countries.contains r.country &&
      (decide (c.yearLo ≤ r.year) && decide (r.year ≤ c.yearHi)))
  if c.search ≠ "" then
    base.filter (fun r => containsCI r.testName c.search)
  else
    base

/-- C3: whenever the sentinel "All" is among the selected categories, the
filter result equals the filter with the category condition dropped
entirely, no matter which other categories are selected. -/
theorem C3_all_sentinel_drops_category (data : List Record) (c : Criteria)
    (h : "All" ∈ c.categories) :
    filtered_data data c = filteredNoCategory data c := by
  unfold filtered_data filteredNoCategory
  rw [if_pos (contains_true_iff.mpr h)]

/-- Witness for C3 at the demo dataset with categories {"All", "Shaft"}. -/
theorem C3_all_sentinel_drops_category_witness :
    filtered_data demoData ⟨["USA", "USSR"], 1960, 1968, ["All", "Shaft"], ""⟩ =
      filteredNoCategory demoData ⟨["USA", "USSR"], 1960, 1968, ["All", "Shaft"], ""⟩ :=
  C3_all_sentinel_drops_category demoData
    ⟨["USA", "USSR"], 1960, 1968, ["All", "Shaft"], ""⟩ (by decide)

/-- C7: filtering an already-filtered view again with the same criteria
returns an identical view. -/
theorem C7_filter_idempotent (data : List Record) (c : Criteria) :
    filtered_data (filtered_data data c) c = filtered_data data c := by
  rw [filtered_eq_filter data c, filtered_eq_filter, List.filter_filter]
  apply List.filter_congr
  intro r _
  exact Bool.and_self (predB c r)

/-- An empty year interval (lower bound above upper bound) makes the
conjunction unsatisfiable, so the literal-search pipeline returns no
rows. -/
theorem filtered_data_nil_of_empty_years (data : List Record) (c : Criteria)
    (h : c.yearHi < c.yearLo) :
    filtered_data data c = [] := by
  rw [filtered_eq_filter]
  rw [List.filter_eq_nil_iff]
  intro r _
  unfold predB
  simp only [Bool.and_eq_true, decide_eq_true_eq]
  rintro ⟨⟨⟨-, hlo, hhi⟩, -⟩, -⟩
  omega

/-- Criteria pair refuting C6 as stated: A searches for nothing (empty
search), B searches for "zzz"; every inclusion demanded by the claim holds,
yet A's result is not contained in B's. -/
def critA : Criteria := ⟨["USA", "USSR"], 1960, 1968, ["All"], ""⟩

/-- The second criteria of the C6 counterexample (search "zzz"). -/
def critB : Criteria := ⟨["USA", "USSR"], 1960, 1968, ["All"], "zzz"⟩

/-- C6 counterexample: with A's search empty and B's search "zzz", all the
claim's premises hold (country and category sets are subsets, the year
interval is contained, and "A's search non-empty implies same search in B"
holds vacuously), but the record `recUSA1965` is in `filter(demoData, A)`
and not in `filter(demoData, B)`. -/
theorem C6_counterexample :
    (∀ x ∈ critA.countries, x ∈ critB.countries) ∧
    (∀ x ∈ critA.categories, x ∈ critB.categories) ∧
    critB.yearLo ≤ critA.yearLo ∧ critA.yearHi ≤ critB.yearHi ∧
    (critA.search ≠ "" → critB.search = critA.search) ∧
    recUSA1965 ∈ filtered_data demoData critA ∧
    recUSA1965 ∉ filtered_data demoData critB := by
  decide

/-- C6 (amended): monotonicity holds once the search condition also covers
the empty case — A's countries and categories are subsets of B's, A's year
interval is contained in B's, if A's search is non-empty then B has the
same search, and if A's search is empty then B's search is empty too; then
every record of `filter(dataset, A)` is a record of `filter(dataset, B)`. -/
theorem C6_filter_monotone (data : List Record) (A B : Criteria)
    (hc : ∀ x ∈ A.countries, x ∈ B.countries)
    (hcat : ∀ x ∈ A.categories, x ∈ B.categories)
    (hlo : B.yearLo ≤ A.yearLo) (hhi : A.yearHi ≤ B.yearHi)
    (hs1 : A.search ≠ "" → B.search = A.search)
    (hs2 : A.search = "" → B.search = "") :
    ∀ r ∈ filtered_data data A, r ∈ filtered_data data B := by
  intro r hr
  rw [mem_filtered_iff] at hr ⊢
  obtain ⟨hd, h1, h2, h3, h4, h5⟩ := hr
  refine ⟨hd, hc _ h1, le_trans hlo h2, le_trans h3 hhi, ?_, ?_⟩
  · cases h4 with
    | inl h => exact Or.inl (hcat _ h)
    | inr h => exact Or.inr (hcat _ h)
  · by_cases hA : A.search = ""
    · exact Or.inl (hs2 hA)
    · cases h5 with
      | inl h => exact absurd h hA
      | inr h => exact Or.inr (by rw [hs1 hA]; exact h)

/-- Witness for the amended C6: widening the year range and country set of
`critA` keeps its results. -/
theorem C6_filter_monotone_witness :
    recUSA1965 ∈ filtered_data demoData ⟨["USA", "USSR", "France"], 1950, 1975, ["All"], ""⟩ :=
  C6_filter_monotone demoData critA
    ⟨["USA", "USSR", "France"], 1950, 1975, ["All"], ""⟩
    (by decide) (by decide) (by decide) (by decide)
    (by intro h; exact absurd rfl h) (by intro _; rfl)
    recUSA1965 (by decide)

/-- Criteria refuting C1 as stated: the search "." is a regex wildcard,
not a literal dot. -/
def critDot : Criteria := ⟨["USA", "USSR"], 1960, 1968, ["All"], "."⟩

/-- C1 counterexample: at search ".", the program's filter (pandas
compiles the search as a regex, default `regex=True`) keeps `recUSA1965`,
whose test name "Alpha" contains no literal dot — so the record fails the
claimed substring conjunction yet is in the result, falsifying the claimed
characterization. -/
theorem C1_counterexample :
    filtered_dataRe [recUSA1965] critDot = SearchOutcome.ok [recUSA1965] ∧
    ¬ specMatch critDot recUSA1965 := by
  decide

/-- C1 (amended): for every Filter Criteria whose search is empty or free
of regex metacharacters (so the compiled pattern matches it literally),
the filter completes and contains exactly those records satisfying the
conjunction — country selected, year in the inclusive range, "All"
selected or category selected, search empty or a case-insensitive
substring of the test name — and the result preserves the dataset's
original row order (it is a sublist of the dataset). -/
theorem C1_filter_exact_and_ordered (data : List Record) (c : Criteria)
    (hs : c.search = "" ∨ noMeta c.search = true) :
    ∃ rows, filtered_dataRe data c = SearchOutcome.ok rows ∧
      (∀ r : Record, r ∈ rows ↔ r ∈ data ∧ specMatch c r) ∧
      rows.Sublist data := by
  refine ⟨filtered_data data c, filtered_dataRe_literal data c hs, ?_, ?_⟩
  · exact fun r => mem_filtered_iff data c r
  · rw [filtered_eq_filter]
    exact List.filter_sublist data

/-- Witness for the amended C1 at the demo dataset with an empty search. -/
theorem C1_filter_exact_and_ordered_witness :
    ∃ rows, filtered_dataRe demoData critA = SearchOutcome.ok rows ∧
      (∀ r : Record, r ∈ rows ↔ r ∈ demoData ∧ specMatch critA r) ∧
      rows.Sublist demoData :=
  C1_filter_exact_and_ordered demoData critA (Or.inl rfl)

/-- Criteria refuting C9 as stated: the year interval is empty, but the
search "(" is an invalid regex. -/
def critParen : Criteria := ⟨["USA", "USSR"], 1980, 1960, ["All"], "("⟩

/-- C9 counterexample: with year_lo > year_hi and search "(", line 91
still compiles the search as a regex and `re.compile("(")` raises
`re.error`, so the program errors instead of returning the empty view —
"not an error, regardless of the other criteria" fails. -/
theorem C9_counterexample :
    critParen.yearHi < critParen.yearLo ∧
    filtered_dataRe demoData critParen = SearchOutcome.reErr := by
  decide

/-- C9 (amended): an empty year interval (lower bound above upper bound)
yields the empty view, not an error, for every criteria whose search is
empty or free of regex metacharacters (so the search stage cannot raise). -/
theorem C9_empty_year_interval (data : List Record) (c : Criteria)
    (h : c.yearHi < c.yearLo) (hs : c.search = "" ∨ noMeta c.search = true) :
    filtered_dataRe data c = SearchOutcome.ok [] := by
  rw [filtered_dataRe_literal data c hs, filtered_data_nil_of_empty_years data c h]

/-- Witness for the amended C9: year range [1980, 1960] with an empty
search empties the demo dataset without error. -/
theorem C9_empty_year_interval_witness :
    filtered_dataRe demoData ⟨["USA", "USSR"], 1980, 1960, ["All"], ""⟩ =
      SearchOutcome.ok [] :=
  C9_empty_year_interval demoData ⟨["USA", "USSR"], 1980, 1960, ["All"], ""⟩
    (by decide) (Or.inl rfl)

/-- One row of the raw CSV before `dropna`: each of the eleven required
source columns may be null (`none`). -/
structure RawRow where
  lat : Option Rat
  lon : Option Rat
  day : Option Int
  month : Option Int
  year : Option Int
  srcCountry : Option String
  deployLoc : Option String
  depth : Option Rat
  purpose : Option String
  testName : Option String
  testType : Option String
deriving DecidableEq, Repr

/-- The `dropna` condition of `load_data`: all eleven required fields are
present (non-null). -/
def allPresent (r : RawRow) : Bool :=
  r.lat.isSome && r.lon.isSome && r.day.isSome && r.month.isSome &&
  r.year.isSome && r.srcCountry.isSome && r.deployLoc.isSome &&
  r.depth.isSome && r.purpose.isSome && r.testName.isSome && r.testType.isSome

/-- The column derivations of `load_data` (lines 42–51): copy the source
columns into display names, build `Location = deployment + ", " + country`,
and alias `Category = Test Type`.  (`getD` defaults are never reached on
rows that survived `dropna`.) -/
def derive (r : RawRow) : Record :=
  ⟨r.lat.getD 0, r.lon.getD 0, r.day.getD 0, r.month.getD 0, r.year.getD 0,
    r.srcCountry.getD "", r.deployLoc.getD "", r.depth.getD 0,
    r.purpose.getD "", r.testName.getD "", r.testType.getD "",
    r.deployLoc.getD "" ++ ", " ++ r.srcCountry.getD "",
    r.testType.getD ""⟩

/-- The row pipeline of `load_data` on a successfully read CSV: keep the
rows whose required fields are all present, derive the display columns, and
keep each surviving row under its original index (pandas preserves the row
index through `dropna` and column assignment). -/
def loadRows (raws : List RawRow) : List (Nat × Record) :=
  (raws.enum.filter (fun p => allPresent p.2)).map (fun p => (p.1, derive p.2))

/-- C4: a raw row appears in the loaded dataset (its index survives the
load) iff all eleven required fields of that row are present. -/
theorem C4_load_completeness (raws : List RawRow) (i : Nat)
    (h : i < raws.length) :
    (∃ rec, (i, rec) ∈ loadRows raws) ↔ allPresent raws[i] = true := by
  constructor
  · rintro ⟨rec, hm⟩
    unfold loadRows at hm
    rw [List.mem_map] at hm
    obtain ⟨p, hp, heq⟩ := hm
    rw [List.mem_filter] at hp
    obtain ⟨hpe, hpa⟩ := hp
    have h1 : p.1 = i := congrArg Prod.fst heq
    have h2 : raws[p.1]? = some p.2 :=
      List.mk_mem_enum_iff_getElem?.mp (show (p.1, p.2) ∈ raws.enum from hpe)
    rw [h1, List.getElem?_eq_getElem h] at h2
    rw [show raws[i] = p.2 from by injection h2]
    exact hpa
  · intro ha
    refine ⟨derive raws[i], ?_⟩
    unfold loadRows
    rw [List.mem_map]
    refine ⟨(i, raws[i]), ?_, rfl⟩
    rw [List.mem_filter]
    refine ⟨?_, ha⟩
    rw [List.mk_mem_enum_iff_getElem?]
    simp [List.getElem?_eq_getElem h]

/-- Raw version of the demo record `recUSA1965`, with all fields present. -/
def rawComplete : RawRow :=
  ⟨some 37, some (-116), some 1, some 1, some 1965, some "USA", some "Nevada",
    some 500, some "Wr", some "Alpha", some "Shaft"⟩

/-- A raw row with a null depth (and null purpose), to be dropped. -/
def rawMissingDepth : RawRow :=
  ⟨some 50, some 78, some 4, some 5, some 1965, some "USSR",
    some "Semipalatinsk", none, none, some "Charlie", some "Shaft"⟩

/-- Witness for C4: in the two-row raw file `[rawComplete, rawMissingDepth]`,
row 0 (complete) appears in the loaded dataset and row 1 (null depth) does
not. -/
theorem C4_load_completeness_witness :
    (∃ rec, (0, rec) ∈ loadRows [rawComplete, rawMissingDepth]) ∧
    ¬(∃ rec, (1, rec) ∈ loadRows [rawComplete, rawMissingDepth]) :=
  ⟨(C4_load_completeness [rawComplete, rawMissingDepth] 0 (by decide)).mpr
      (by decide),
    fun hex =>
      absurd ((C4_load_completeness [rawComplete, rawMissingDepth] 1 (by decide)).mp hex)
        (by decide)⟩

/-- Model of the pandas DataFrame produced by `load_data`: its rows, plus
whether the derived columns exist at all.  The `except` branch of
`load_data` returns the column-less `pd.DataFrame()`, so there `hasCols`
is false. -/
structure PandasDF where
  hasCols : Bool
  rows : List (Nat × Record)
deriving DecidableEq, Repr

/-- `load_data` (lines 23–56): on a successful read, the derived rows; on
any read failure the code shows `st.error(...)` and returns the empty,
column-less `pd.DataFrame()`.  `none` models a source that cannot be read
(missing file or malformed structure). -/
def load_data : Option (List RawRow) → PandasDF
  | some raws => ⟨true, loadRows raws⟩
  | none => ⟨false, []⟩

/-- Column access `data["Country"]` as used by the sidebar (line 71): a
KeyError if the DataFrame has no such column. -/
def colCountry (df : PandasDF) : Except String (List String) :=
  if df.hasCols then Except.ok (df.rows.map (fun p => p.2.country))
  else Except.error "KeyError: Country"

/-- First-occurrence deduplication, the semantics of `Series.unique()`. -/
def firstDedupAux (seen : List String) : List String → List String
  | [] => []
  | h :: t =>
    if seen.contains h then firstDedupAux seen t
    else h :: firstDedupAux (h :: seen) t

/-- The sidebar's country-options computation
`data["Country"].unique()` (line 71), the first pipeline step after the
load. -/
def sidebarCountryOptions (df : PandasDF) : Except String (List String) :=
  match colCountry df with
  | Except.ok col => Except.ok (firstDedupAux [] col)
  | Except.error e => Except.error e

/-- C2 (evaluation at the failing input): after a failed load the code does
return an empty DataFrame alongside the error banner, but the very next
pipeline step — the sidebar's `data["Country"].unique()` — raises a
KeyError on the column-less empty DataFrame, so the session does crash
rather than completing every subsequent step. -/
theorem C2_load_failure_sidebar_raises :
    (load_data none).rows = [] ∧
    sidebarCountryOptions (load_data none) = Except.error "KeyError: Country" :=
  ⟨rfl, rfl⟩

/-- Sum of a list of rationals (`Series.sum`). -/
def sumR (l : List Rat) : Rat := l.foldl (· + ·) 0

/-- Mean of a list of rationals (`Series.mean`), exact-arithmetic model of
the float computation. -/
def meanR (l : List Rat) : Rat := sumR l / (l.length : Rat)

/-- Minimum of a list of rationals (`Series.min`); only ever used
non-empty. -/
def minR : List Rat → Rat
  | [] => 0
  | h :: t => t.foldl min h

/-- Maximum of a list of rationals (`Series.max`); only ever used
non-empty. -/
def maxR : List Rat → Rat
  | [] => 0
  | h :: t => t.foldl max h

/-- Number of occurrences of `a` in `l`. -/
def countOcc (l : List String) (a : String) : Nat :=
  (l.filter (fun x => x == a)).length

/-- `value_counts().idxmax()`: a most frequent value of the list, ties
broken in favor of the earlier-encountered value. -/
def topOcc (l : List String) : String :=
  match l with
  | [] => ""
  | h :: _ =>
    l.foldl (fun best x => if countOcc l best < countOcc l x then x else best) h

/-- The sidebar "Data Summary" statistics (lines 94–115). -/
structure Summary where
  count : Nat
  avgDepth : Rat
  minDepth : Rat
  maxDepth : Rat
  avgLat : Rat
  avgLon : Rat
  uniqueLocations : Nat
  topCountry : String
  topPurpose : String
  topType : String
deriving DecidableEq, Repr

/-- The summary computation of the sidebar (lines 94–104): produced only
when the filtered view has at least one row, otherwise nothing. -/
def summarize (view : List Record) : Option Summary :=
  if 0 < view.length then
    some ⟨view.length,
      meanR (view.map (·.depth)), minR (view.map (·.depth)),
      maxR (view.map (·.depth)),
      meanR (view.map (·.lat)), meanR (view.map (·.lon)),
      (firstDedupAux [] (view.map (·.location))).length,
      topOcc (view.map (·.country)), topOcc (view.map (·.purpose)),
      topOcc (view.map (·.testType))⟩
  else none

/-- What the sidebar renders from a filtered view: the summary expander, or
the "no data" warning. -/
inductive SidebarOut where
  | warning (msg : String)
  | summaryBox (s : Summary)
deriving DecidableEq, Repr

/-- Lines 95–117: render the summary when there is data, the warning
otherwise. -/
def sidebarSummary (view : List Record) : SidebarOut :=
  match summarize view with
  | some s => SidebarOut.summaryBox s
  | none => SidebarOut.warning "No data matches the selected filters."

theorem foldl_min_mem (t : List Rat) (a : Rat) :
    t.foldl min a = a ∨ t.foldl min a ∈ t := by
  induction t generalizing a with
  | nil => exact Or.inl rfl
  | cons h tl ih =>
    simp only [List.foldl_cons]
    rcases ih (min a h) with hh | hh
    · rcases min_choice a h with hm | hm
      · exact Or.inl (by rw [hh, hm])
      · exact Or.inr (by rw [hh, hm]; exact List.mem_cons_self h tl)
    · exact Or.inr (List.mem_cons_of_mem h hh)

theorem foldl_min_le (t : List Rat) (a : Rat) :
    t.foldl min a ≤ a ∧ ∀ x ∈ t, t.foldl min a ≤ x := by
  induction t generalizing a with
  | nil => exact ⟨le_refl a, by intro x hx; cases hx⟩
  | cons h tl ih =>
    simp only [List.foldl_cons]
    obtain ⟨ih1, ih2⟩ := ih (min a h)
    refine ⟨le_trans ih1 (min_le_left a h), ?_⟩
    intro x hx
    rcases List.mem_cons.mp hx with hx1 | hx2
    · rw [hx1]; exact le_trans ih1 (min_le_right a h)
    · exact ih2 x hx2

theorem foldl_max_mem (t : List Rat) (a : Rat) :
    t.foldl max a = a ∨ t.foldl max a ∈ t := by
  induction t generalizing a with
  | nil => exact Or.inl rfl
  | cons h tl ih =>
    simp only [List.foldl_cons]
    rcases ih (max a h) with hh | hh
    · rcases max_choice a h with hm | hm
      · exact Or.inl (by rw [hh, hm])
      · exact Or.inr (by rw [hh, hm]; exact List.mem_cons_self h tl)
    · exact Or.inr (List.mem_cons_of_mem h hh)

theorem foldl_le_max (t : List Rat) (a : Rat) :
    a ≤ t.foldl max a ∧ ∀ x ∈ t, x ≤ t.foldl max a := by
  induction t generalizing a with
  | nil => exact ⟨le_refl a, by intro x hx; cases hx⟩
  | cons h tl ih =>
    simp only [List.foldl_cons]
    obtain ⟨ih1, ih2⟩ := ih (max a h)
    refine ⟨le_trans (le_max_left a h) ih1, ?_⟩
    intro x hx
    rcases List.mem_cons.mp hx with hx1 | hx2
    · rw [hx1]; exact le_trans (le_max_right a h) ih1
    · exact ih2 x hx2

theorem minR_mem (l : List Rat) (h : l ≠ []) : minR l ∈ l := by
  match l with
  | h0 :: t =>
    show t.foldl min h0 ∈ h0 :: t
    rcases foldl_min_mem t h0 with hh | hh
    · rw [hh]; exact List.mem_cons_self h0 t
    · exact List.mem_cons_of_mem h0 hh

theorem minR_le (l : List Rat) : ∀ x ∈ l, minR l ≤ x := by
  match l with
  | [] => intro x hx; cases hx
  | h0 :: t =>
    intro x hx
    show t.foldl min h0 ≤ x
    obtain ⟨h1, h2⟩ := foldl_min_le t h0
    rcases List.mem_cons.mp hx with hx1 | hx2
    · rw [hx1]; exact h1
    · exact h2 x hx2

theorem maxR_mem (l : List Rat) (h : l ≠ []) : maxR l ∈ l := by
  match l with
  | h0 :: t =>
    show t.foldl max h0 ∈ h0 :: t
    rcases foldl_max_mem t h0 with hh | hh
    · rw [hh]; exact List.mem_cons_self h0 t
    · exact List.mem_cons_of_mem h0 hh

theorem le_maxR (l : List Rat) : ∀ x ∈ l, x ≤ maxR l := by
  match l with
  | [] => intro x hx; cases hx
  | h0 :: t =>
    intro x hx
    show x ≤ t.foldl max h0
    obtain ⟨h1, h2⟩ := foldl_le_max t h0
    rcases List.mem_cons.mp hx with hx1 | hx2
    · rw [hx1]; exact h1
    · exact h2 x hx2

theorem foldl_sel_mem (cnt : String → Nat) (t : List String) (a : String) :
    t.foldl (fun best x => if cnt best < cnt x then x else best) a = a ∨
    t.foldl (fun best x => if cnt best < cnt x then x else best) a ∈ t := by
  induction t generalizing a with
  | nil => exact Or.inl rfl
  | cons h tl ih =>
    simp only [List.foldl_cons]
    rcases ih (if cnt a < cnt h then h else a) with hh | hh
    · by_cases hc : cnt a < cnt h
      · rw [if_pos hc] at hh ⊢
        rw [hh]
        exact Or.inr (List.mem_cons_self h tl)
      · rw [if_neg hc] at hh ⊢
        rw [hh]
        exact Or.inl rfl
    · exact Or.inr (List.mem_cons_of_mem h hh)

theorem topOcc_mem (l : List String) (h : l ≠ []) : topOcc l ∈ l := by
  match l with
  | h0 :: t =>
    show (h0 :: t).foldl
        (fun best x =>
          if countOcc (h0 :: t) best < countOcc (h0 :: t) x then x else best) h0 ∈
      h0 :: t
    rcases foldl_sel_mem (countOcc (h0 :: t)) (h0 :: t) h0 with hh | hh
    · rw [hh]; exact List.mem_cons_self h0 t
    · exact hh

/-- C5: the summary is absent exactly on the empty view; on the empty view
the warning is rendered instead; and on a non-empty view the produced
summary is complete and meaningful — the count is the number of rows, the
min/max depth are attained depths bounding all depths of the view, and the
mode fields are values occurring in the view. -/
theorem C5_summary_none_iff_empty (view : List Record) :
    (summarize view = none ↔ view = []) ∧
    (view = [] →
      sidebarSummary view = SidebarOut.warning "No data matches the selected filters.") ∧
    (∀ s, summarize view = some s →
      s.count = view.length ∧
      s.maxDepth ∈ view.map (·.depth) ∧ (∀ r ∈ view, r.depth ≤ s.maxDepth) ∧
      s.minDepth ∈ view.map (·.depth) ∧ (∀ r ∈ view, s.minDepth ≤ r.depth) ∧
      s.topCountry ∈ view.map (·.country) ∧
      s.topPurpose ∈ view.map (·.purpose) ∧
      s.topType ∈ view.map (·.testType)) := by
  refine ⟨?_, ?_, ?_⟩
  · unfold summarize
    by_cases h : 0 < view.length
    · rw [if_pos h]
      simp only [reduceCtorEq, false_iff]
      intro he
      rw [he] at h
      exact absurd h (by simp)
    · rw [if_neg h]
      simp only [true_iff]
      exact List.length_eq_zero.mp (by omega)
  · intro he
    rw [he]
    rfl
  · intro s hs
    unfold summarize at hs
    by_cases h : 0 < view.length
    · rw [if_pos h] at hs
      have hv : view ≠ [] := by
        intro he; rw [he] at h; exact absurd h (by simp)
      have hmap : view.map (·.depth) ≠ [] := by
        simpa [List.map_eq_nil_iff] using hv
      obtain rfl : s = _ := (Option.some.injEq _ _).mp hs.symm
      refine ⟨rfl, maxR_mem _ hmap, ?_, minR_mem _ hmap, ?_, ?_, ?_, ?_⟩
      · intro r hr
        exact le_maxR _ _ (List.mem_map_of_mem (·.depth) hr)
      · intro r hr
        exact minR_le _ _ (List.mem_map_of_mem (·.depth) hr)
      · exact topOcc_mem _ (by simpa [List.map_eq_nil_iff] using hv)
      · exact topOcc_mem _ (by simpa [List.map_eq_nil_iff] using hv)
      · exact topOcc_mem _ (by simpa [List.map_eq_nil_iff] using hv)
    · rw [if_neg h] at hs
      cases hs

/-- Witness for C5: on the empty view the summary is absent and the
warning is rendered; on the demo data the summary exists. -/
theorem C5_summary_none_iff_empty_witness :
    summarize ([] : List Record) = none ∧
    sidebarSummary ([] : List Record) =
      SidebarOut.warning "No data matches the selected filters." :=
  ⟨(C5_summary_none_iff_empty []).1.mpr rfl,
    (C5_summary_none_iff_empty []).2.1 rfl⟩

/-- One piece of output written by the feedback section after a submit:
the success banner, the rating echo, the name echo, or the comment echo. -/
inductive FOut where
  | success (msg : String)
  | ratingLine (r : Int)
  | nameLine (s : String)
  | commentLine (s : String)
deriving DecidableEq, Repr

/-- The feedback acknowledgment (lines 204–210): on submit, the success
banner and the rating are always written; the name is written only when
non-empty (Python truthiness of the string), and likewise the comment. -/
def submitted (rating : Int) (feedbackName comments : String) : List FOut :=
  [FOut.success "Thank you for your feedback!", FOut.ratingLine rating] ++
  (if feedbackName ≠ "" then [FOut.nameLine feedbackName] else []) ++
  (if comments ≠ "" then [FOut.commentLine comments] else [])

/-- C8: for any submission with a rating in [1, 5], the acknowledgment
echoes the rating always, carries a name line exactly when the name is
non-empty (and then only with that name), and carries a comment line
exactly when the comment is non-empty (and then only with that comment). -/
theorem C8_feedback_ack (rating : Int) (feedbackName comments : String)
    (h1 : 1 ≤ rating) (h2 : rating ≤ 5) :
    FOut.ratingLine rating ∈ submitted rating feedbackName comments ∧
    (∀ s, FOut.nameLine s ∈ submitted rating feedbackName comments ↔
      (feedbackName ≠ "" ∧ s = feedbackName)) ∧
    (∀ s, FOut.commentLine s ∈ submitted rating feedbackName comments ↔
      (comments ≠ "" ∧ s = comments)) := by
  unfold submitted
  by_cases hn : feedbackName = "" <;> by_cases hc : comments = "" <;>
    simp [hn, hc]

/-- Witness for C8, the spec §8 scenario: rating 4, empty name, comment
"Great tool" — the acknowledgment echoes rating 4 and the comment and has
no name line. -/
theorem C8_feedback_ack_witness :
    FOut.ratingLine 4 ∈ submitted 4 "" "Great tool" ∧
    (∀ s, FOut.nameLine s ∉ submitted 4 "" "Great tool") ∧
    FOut.commentLine "Great tool" ∈ submitted 4 "" "Great tool" := by
  have h := C8_feedback_ack 4 "" "Great tool" (by decide) (by decide)
  exact ⟨h.1, fun s hm => ((h.2.1 s).mp hm).1 rfl,
    (h.2.2 "Great tool").mpr ⟨by decide, rfl⟩⟩

/-- Ordering used by `DataFrame.nlargest(5, "Depth")` with the default
`keep='first'` on indexed rows: `a` comes before `b` when `a`'s depth is
strictly greater, or the depths are equal and `a` has the smaller original
row position. -/
def relDeep (a b : Nat × Record) : Bool :=
  decide (b.2.depth < a.2.depth) ||
  (decide (a.2.depth = b.2.depth) && decide (a.1 ≤ b.1))

/-- Insertion step of the sort underlying `nlargest`. -/
def insertDeep (x : Nat × Record) : List (Nat × Record) → List (Nat × Record)
  | [] => [x]
  | h :: t => if relDeep x h then x :: h :: t else h :: insertDeep x t

/-- Sort indexed rows by depth descending, ties by original position. -/
def sortDeep : List (Nat × Record) → List (Nat × Record)
  | [] => []
  | h :: t => insertDeep h (sortDeep t)

/-- Model of `filtered_data.nlargest(5, "Depth")` (line 188): the rows of
the view ordered by depth descending — ties broken by original row order,
which is pandas' `keep='first'` — cut to the first five. -/
def nlargest5 (view : List Record) : List (Nat × Record) :=
  (sortDeep view.enum).take 5

theorem relDeep_total (a b : Nat × Record) :
    relDeep a b = true ∨ relDeep b a = true := by
  unfold relDeep
  simp only [Bool.or_eq_true, Bool.and_eq_true, decide_eq_true_eq]
  rcases lt_trichotomy a.2.depth b.2.depth with h | h | h
  · exact Or.inr (Or.inl h)
  · rcases Nat.le_total a.1 b.1 with hle | hle
    · exact Or.inl (Or.inr ⟨h, hle⟩)
    · exact Or.inr (Or.inr ⟨h.symm, hle⟩)
  · exact Or.inl (Or.inl h)

theorem relDeep_trans {a b c : Nat × Record} (hab : relDeep a b = true)
    (hbc : relDeep b c = true) : relDeep a c = true := by
  unfold relDeep at hab hbc ⊢
  simp only [Bool.or_eq_true, Bool.and_eq_true, decide_eq_true_eq] at hab hbc ⊢
  rcases hab with h1 | ⟨he1, hi1⟩ <;> rcases hbc with h2 | ⟨he2, hi2⟩
  · exact Or.inl (lt_trans h2 h1)
  · exact Or.inl (he2 ▸ h1)
  · exact Or.inl (he1 ▸ h2)
  · exact Or.inr ⟨he1.trans he2, le_trans hi1 hi2⟩

theorem insertDeep_perm (x : Nat × Record) (l : List (Nat × Record)) :
    (insertDeep x l).Perm (x :: l) := by
  induction l with
  | nil => exact List.Perm.refl _
  | cons h t ih =>
    unfold insertDeep
    by_cases hr : relDeep x h = true
    · rw [if_pos hr]
    · rw [if_neg hr]
      exact (List.Perm.cons h ih).trans (List.Perm.swap x h t)

theorem sortDeep_perm (l : List (Nat × Record)) : (sortDeep l).Perm l := by
  induction l with
  | nil => exact List.Perm.refl _
  | cons h t ih =>
    exact (insertDeep_perm h (sortDeep t)).trans (List.Perm.cons h ih)

theorem mem_insertDeep {y x : Nat × Record} {l : List (Nat × Record)} :
    y ∈ insertDeep x l ↔ y ∈ x :: l :=
  (insertDeep_perm x l).mem_iff

theorem insertDeep_pairwise (x : Nat × Record) (l : List (Nat × Record))
    (hl : l.Pairwise (fun a b => relDeep a b = true)) :
    (insertDeep x l).Pairwise (fun a b => relDeep a b = true) := by
  induction l with
  | nil => simp [insertDeep]
  | cons h t ih =>
    unfold insertDeep
    rcases List.pairwise_cons.mp hl with ⟨hh, ht⟩
    by_cases hr : relDeep x h = true
    · rw [if_pos hr]
      refine List.Pairwise.cons ?_ hl
      intro y hy
      rcases List.mem_cons.mp hy with rfl | hy
      · exact hr
      · exact relDeep_trans hr (hh y hy)
    · rw [if_neg hr]
      have hhx : relDeep h x = true := (relDeep_total x h).resolve_left hr
      refine List.Pairwise.cons ?_ (ih ht)
      intro y hy
      rcases List.mem_cons.mp (mem_insertDeep.mp hy) with rfl | hy'
      · exact hhx
      · exact hh y hy'

theorem sortDeep_pairwise (l : List (Nat × Record)) :
    (sortDeep l).Pairwise (fun a b => relDeep a b = true) := by
  induction l with
  | nil => exact List.Pairwise.nil
  | cons h t ih => exact insertDeep_pairwise h (sortDeep t) ih

/-- C10: for a non-empty filtered view, the Details "Top 5 Deepest
Explosions" table is sorted by depth descending with ties broken by
original row order; when the view has fewer than 5 records the table is a
permutation of the whole view (all records appear), and with 5 or more it
has exactly 5 rows, each ranking at least as deep as every row left out. -/
theorem C10_details_top5 (view : List Record) (hne : view ≠ []) :
    (view.length < 5 → (nlargest5 view).Perm view.enum) ∧
    (nlargest5 view).Pairwise (fun a b => relDeep a b = true) ∧
    (5 ≤ view.length →
      (nlargest5 view).length = 5 ∧
      ∀ p ∈ view.enum, p ∉ nlargest5 view →
        ∀ q ∈ nlargest5 view, relDeep q p = true) := by
  have hperm := sortDeep_perm view.enum
  have hpw := sortDeep_pairwise view.enum
  have hlen : (sortDeep view.enum).length = view.length := by
    rw [hperm.length_eq, List.enum_length]
  refine ⟨?_, ?_, ?_⟩
  · intro h5
    unfold nlargest5
    rw [List.take_of_length_le (by omega)]
    exact hperm
  · exact List.Pairwise.sublist (List.take_sublist 5 _) hpw
  · intro h5
    refine ⟨?_, ?_⟩
    · unfold nlargest5
      rw [List.length_take, hlen]
      omega
    · intro p hp hpn q hq
      have hsplit : sortDeep view.enum =
          nlargest5 view ++ (sortDeep view.enum).drop 5 :=
        (List.take_append_drop 5 _).symm
      have hp' : p ∈ sortDeep view.enum := hperm.mem_iff.mpr hp
      rw [hsplit] at hp'
      rcases List.mem_append.mp hp' with hp1 | hp2
      · exact absurd hp1 hpn
      · exact (List.pairwise_append.mp (hsplit ▸ hpw)).2.2 q hq p hp2

/-- Witness for C10: the four-record demo view has fewer than 5 records,
so its deepest-explosions table is a permutation of the whole view. -/
theorem C10_details_top5_witness :
    (nlargest5 demoData).Perm demoData.enum :=
  (C10_details_top5 demoData (by decide)).1 (by decide)

end NuclearApp
